import Mathlib

/-!
Shallow embedding of the subgraph construction and relationship-navigation
engine of trustgraph-react-state, translated from
src/src/utils/knowledge-graph.ts and src/src/utils/knowledge-graph-viz.ts.

Terms are tagged records mirroring the TypeScript duck-typed union
(a tag string `t` plus the per-variant payload fields, with an optional
enrichment `label`); statements are triples of terms; the merge engine
folds statements into a Subgraph of nodes and links while tracking
seen-id sets, exactly as the source loop does.  Asynchronous functions
are embedded as pure functions over a mock socket, returning an
`Except` result paired with the trace of observable events (activity
add/remove signals and triplesQuery invocations).
-/

namespace TrustGraph

/-- A graph Term, mirroring the TypeScript union: tag `t` is "i" for an
IRI (payload `i`), "l" for a literal (payload `v`), "b" for a blank node
(payload `d`); any other tag is a malformed term.  `label` is the
optional enrichment annotation attached by the labeling functions. -/
structure Term where
  t : String
  i : String := ""
  v : String := ""
  d : String := ""
  label : Option String := none
deriving DecidableEq, Repr

/-- Translation of getTermValue: the string value of a Term, with the
defensive empty-string default for an unrecognised tag. -/
def getTermValue (term : Term) : String :=
  if term.t = "i" then term.i
  else if term.t = "l" then term.v
  else if term.t = "b" then term.d
  else ""

/-- Translation of isIri: a Term is an IRI exactly when its tag is "i". -/
def isIri (term : Term) : Bool :=
  term.t = "i"

/-- The term `{ t: "i", i: s }` built at query call sites. -/
def iriTerm (s : String) : Term :=
  { t := "i", i := s }

/-- A statement: subject, predicate, object. -/
structure Triple where
  s : Term
  p : Term
  o : Term
deriving DecidableEq, Repr

/-- A visualization node (interface Node in knowledge-graph-viz.ts). -/
structure Node where
  id : String
  label : String
  group : Nat
deriving DecidableEq, Repr

/-- A visualization link (interface Link in knowledge-graph-viz.ts). -/
structure Link where
  id : String
  source : String
  target : String
  label : String
  value : Nat
deriving DecidableEq, Repr

/-- The accumulated visualization state. -/
structure Subgraph where
  nodes : List Node
  links : List Link
deriving DecidableEq, Repr

/-- Translation of createSubgraph: the empty Subgraph. -/
def createSubgraph : Subgraph :=
  { nodes := [], links := [] }

/-- JavaScript truthiness of `x.label ? x.label : "unknown"`: an absent
label and the empty string are both falsy, so both yield "unknown". -/
def labelOrUnknown (l : Option String) : String :=
  match l with
  | none => "unknown"
  | some s => if s = "" then "unknown" else s

/-- The node id taken from a statement's subject. -/
def sourceIdOf (t : Triple) : String := getTermValue t.s

/-- The node id taken from a statement's object. -/
def targetIdOf (t : Triple) : String := getTermValue t.o

/-- The composite link key source@@predicate@@target. -/
def linkIdOf (t : Triple) : String :=
  getTermValue t.s ++ "@@" ++ getTermValue t.p ++ "@@" ++ getTermValue t.o

/-- Loop state of updateSubgraphTriples: the subgraph being built-up
together with the nodeIds and linkIds seen-id sets (modelled as lists,
used only through membership). -/
abbrev MergeState := Subgraph × List String × List String

/-- The `if (!nodeIds.has(id))` block of updateSubgraphTriples: append a
fresh node and record its id, or do nothing when the id is known. -/
def addNode (st : MergeState) (id lbl : String) : MergeState :=
  if id ∈ st.2.1 then st
  else ({ st.1 with nodes := st.1.nodes ++ [{ id := id, label := lbl, group := 1 }] },
        id :: st.2.1, st.2.2)

/-- The `if (!linkIds.has(linkId))` block of updateSubgraphTriples:
append a fresh link and record its key, or do nothing when known. -/
def addLink (st : MergeState) (id src tgt lbl : String) : MergeState :=
  if id ∈ st.2.2 then st
  else ({ st.1 with links := st.1.links ++
            [{ id := id, source := src, target := tgt, label := lbl, value := 1 }] },
        st.2.1, id :: st.2.2)

/-- One iteration of the updateSubgraphTriples loop: skip non-IRI
objects, otherwise add source node, target node and link in order. -/
def mergeStep (st : MergeState) (t : Triple) : MergeState :=
  if isIri t.o then
    addLink
      (addNode (addNode st (sourceIdOf t) (labelOrUnknown t.s.label))
        (targetIdOf t) (labelOrUnknown t.o.label))
      (linkIdOf t) (sourceIdOf t) (targetIdOf t) (labelOrUnknown t.p.label)
  else st

/-- Translation of updateSubgraphTriples: seed the seen-id sets from the
input subgraph, fold the loop body over the statement batch, return the
accumulated subgraph. -/
def updateSubgraphTriples (sg : Subgraph) (triples : List Triple) : Subgraph :=
  (triples.foldl mergeStep (sg, sg.nodes.map Node.id, sg.links.map Link.id)).1

/-- Observable events of the asynchronous layer: activity signals and
triplesQuery invocations (pattern, limit, collection). -/
inductive Event where
  | addAct (s : String)
  | removeAct (s : String)
  | queryCall (s p o : Option Term) (lim : Nat) (col : Option String)
deriving DecidableEq, Repr

/-- Mock of the remote FlowApi socket: triplesQuery maps a pattern
(optional subject/predicate/object terms, limit, optional collection) to
either a resolved statement list or a rejection message. -/
structure FlowApi where
  triplesQuery : Option Term → Option Term → Option Term → Nat →
    Option String → Except String (List Triple)

/-- Invoke the mock socket and record the call event. -/
def runQuery (socket : FlowApi) (s p o : Option Term) (lim : Nat)
    (col : Option String) : Except String (List Triple) × List Event :=
  (socket.triplesQuery s p o lim col, [Event.queryCall s p o lim col])

/-- The constant RDFS_LABEL. -/
def RDFS_LABEL : String := "http://www.w3.org/2000/01/rdf-schema#label"

/-- The constant SKOS_DEFINITION. -/
def SKOS_DEFINITION : String := "http://www.w3.org/2004/02/skos/core#definition"

/-- The constant SCHEMAORG_SUBJECT_OF. -/
def SCHEMAORG_SUBJECT_OF : String := "https://schema.org/subjectOf"

/-- The constant SCHEMAORG_DESCRIPTION. -/
def SCHEMAORG_DESCRIPTION : String := "https://schema.org/description"

/-- The static predefined label table of knowledge-graph.ts. -/
def predefined : List (String × String) :=
  [(RDFS_LABEL, "label"),
   (SKOS_DEFINITION, "definition"),
   (SCHEMAORG_SUBJECT_OF, "subject of"),
   (SCHEMAORG_DESCRIPTION, "description"),
   ("http://www.w3.org/1999/02/22-rdf-syntax-ns#type", "has type"),
   ("https://schema.org/publication", "publication"),
   ("https://schema.org/url", "url"),
   ("https://schema.org/PublicationEvent", "publication event"),
   ("https://schema.org/publishedBy", "published by"),
   ("https://schema.org/DigitalDocument", "digital document"),
   ("https://schema.org/startDate", "start date"),
   ("https://schema.org/endDate", "end date"),
   ("https://schema.org/name", "name"),
   ("https://schema.org/copyrightNotice", "copyright notice"),
   ("https://schema.org/copyrightHolder", "copyright holder"),
   ("https://schema.org/copyrightYear", "copyright year"),
   ("https://schema.org/keywords", "keywords")]

/-- The `uri in predefined` lookup (`predefined[uri]`). -/
def predefinedLookup (uri : String) : Option String :=
  (predefined.find? (fun kv => kv.1 = uri)).map (fun kv => kv.2)

/-- The default triple limit LIMIT. -/
def LIMIT : Nat := 30

/-- JavaScript truthiness of `limit ? limit : LIMIT`: an absent limit
and a zero limit are both falsy, so both fall back to LIMIT. -/
def limitOrDefault (limit : Option Nat) : Nat :=
  match limit with
  | none => LIMIT
  | some l => if l = 0 then LIMIT else l

/-- Translation of queryS: one pattern query on the subject position,
wrapped in its own activity, which is also removed on rejection. -/
def queryS (socket : FlowApi) (uri : String) (limit : Option Nat)
    (col : Option String) : Except String (List Triple) × List Event :=
  let act := "Query S: " ++ uri
  let (r, es) := runQuery socket (some (iriTerm uri)) none none
    (limitOrDefault limit) col
  (r, [Event.addAct act] ++ es ++ [Event.removeAct act])

/-- Translation of queryP: one pattern query on the predicate position,
wrapped in its own activity, which is also removed on rejection. -/
def queryP (socket : FlowApi) (uri : String) (limit : Option Nat)
    (col : Option String) : Except String (List Triple) × List Event :=
  let act := "Query P: " ++ uri
  let (r, es) := runQuery socket none (some (iriTerm uri)) none
    (limitOrDefault limit) col
  (r, [Event.addAct act] ++ es ++ [Event.removeAct act])

/-- Translation of queryO: one pattern query on the object position,
wrapped in its own activity, which is also removed on rejection. -/
def queryO (socket : FlowApi) (uri : String) (limit : Option Nat)
    (col : Option String) : Except String (List Triple) × List Event :=
  let act := "Query O: " ++ uri
  let (r, es) := runQuery socket none none (some (iriTerm uri))
    (limitOrDefault limit) col
  (r, [Event.addAct act] ++ es ++ [Event.removeAct act])

/-- Promise.all over already-started computations: every branch runs
(all events happen); the combined result is the list of values, or the
first rejection in branch order. -/
def promiseAll : List (Except String α) → Except String (List α)
  | [] => Except.ok []
  | Except.error e :: _ => Except.error e
  | Except.ok a :: rest => (promiseAll rest).map (fun l => a :: l)

/-- Translation of query: fan out queryS, queryP, queryO inside an outer
activity; resolve to the concatenation of the three result lists in
subject/predicate/object order, or reject with the first rejection; the
outer activity is removed either way. -/
def query (socket : FlowApi) (uri : String) (limit : Option Nat)
    (col : Option String) : Except String (List Triple) × List Event :=
  let act := "Query: " ++ uri
  let (rs, es) := queryS socket uri limit col
  let (rp, ep) := queryP socket uri limit col
  let (ro, eo) := queryO socket uri limit col
  let trace := [Event.addAct act] ++ es ++ ep ++ eo ++ [Event.removeAct act]
  match rs, rp, ro with
  | Except.ok a, Except.ok b, Except.ok c => (Except.ok (a ++ b ++ c), trace)
  | Except.error e, _, _ => (Except.error e, trace)
  | _, Except.error e, _ => (Except.error e, trace)
  | _, _, Except.error e => (Except.error e, trace)

/-- Translation of queryLabel: short-circuit on the predefined table
with no events at all; otherwise one limit-1 query for the RDFS label
of the uri inside a "Label" activity, resolving to the first returned
object's string value, or to the uri itself on an empty result; the
activity is removed on rejection too. -/
def queryLabel (socket : FlowApi) (uri : String) (col : Option String) :
    Except String String × List Event :=
  match predefinedLookup uri with
  | some l => (Except.ok l, [])
  | none =>
    let act := "Label " ++ uri
    let (r, es) := runQuery socket (some (iriTerm uri))
      (some (iriTerm RDFS_LABEL)) none 1 col
    let trace := [Event.addAct act] ++ es ++ [Event.removeAct act]
    match r with
    | Except.ok triples =>
      (Except.ok (match triples with
        | [] => uri
        | t0 :: _ => getTermValue t0.o), trace)
    | Except.error e => (Except.error e, trace)

/-- Translation of labelS: look up a label for every subject and attach
it to a decorated copy; all lookups run, the combined promise resolves
to the decorated list or rejects with the first rejection. -/
def labelS (socket : FlowApi) (triples : List Triple) (col : Option String) :
    Except String (List Triple) × List Event :=
  let results := triples.map (fun t =>
    let (r, es) := queryLabel socket (getTermValue t.s) col
    (r.map (fun lbl => { t with s := { t.s with label := some lbl } }), es))
  (promiseAll (results.map (fun p => p.1)), (results.map (fun p => p.2)).flatten)

/-- Translation of labelP: as labelS but decorating predicates. -/
def labelP (socket : FlowApi) (triples : List Triple) (col : Option String) :
    Except String (List Triple) × List Event :=
  let results := triples.map (fun t =>
    let (r, es) := queryLabel socket (getTermValue t.p) col
    (r.map (fun lbl => { t with p := { t.p with label := some lbl } }), es))
  (promiseAll (results.map (fun p => p.1)), (results.map (fun p => p.2)).flatten)

/-- Translation of labelO: an IRI object gets a looked-up label, any
other object is decorated with its own string value without a query. -/
def labelO (socket : FlowApi) (triples : List Triple) (col : Option String) :
    Except String (List Triple) × List Event :=
  let results := triples.map (fun t =>
    if isIri t.o then
      let (r, es) := queryLabel socket t.o.i col
      (r.map (fun lbl => { t with o := { t.o with label := some lbl } }), es)
    else
      (Except.ok { t with o := { t.o with label := some (getTermValue t.o) } }, []))
  (promiseAll (results.map (fun p => p.1)), (results.map (fun p => p.2)).flatten)

/-- Translation of filterInternals: drop statements whose predicate is
the RDFS label IRI. -/
def filterInternals (triples : List Triple) : List Triple :=
  triples.filter (fun t => !(isIri t.p && t.p.i == RDFS_LABEL))

/-- The two traversal directions of updateSubgraphByRelationship. -/
inductive Direction where
  | incoming
  | outgoing
deriving DecidableEq, Repr

/-- The string interpolated into the activity label. -/
def dirString : Direction → String
  | Direction.incoming => "incoming"
  | Direction.outgoing => "outgoing"

/-- Translation of updateSubgraphByRelationship: add the directional
activity, issue the single directed limit-20 query, remove the activity
only in the resolve continuation (the source has no catch for the query
promise), then enrich with labelS/labelP/labelO, filter internals, and
merge into the subgraph. -/
def updateSubgraphByRelationship (socket : FlowApi)
    (selectedNodeId relationshipUri : String) (direction : Direction)
    (sg : Subgraph) (col : Option String) :
    Except String Subgraph × List Event :=
  let activityName :=
    "Following " ++ dirString direction ++ " relationship: " ++ relationshipUri
  let pat : Option Term × Option Term × Option Term :=
    match direction with
    | Direction.outgoing =>
      (some (iriTerm selectedNodeId), some (iriTerm relationshipUri), none)
    | Direction.incoming =>
      (none, some (iriTerm relationshipUri), some (iriTerm selectedNodeId))
  let (q, eq0) := runQuery socket pat.1 pat.2.1 pat.2.2 20 col
  match q with
  | Except.error e => (Except.error e, [Event.addAct activityName] ++ eq0)
  | Except.ok triples =>
    let ev0 := [Event.addAct activityName] ++ eq0 ++ [Event.removeAct activityName]
    match labelS socket triples col with
    | (Except.error e, es1) => (Except.error e, ev0 ++ es1)
    | (Except.ok d1, es1) =>
      match labelP socket d1 col with
      | (Except.error e, es2) => (Except.error e, ev0 ++ es1 ++ es2)
      | (Except.ok d2, es2) =>
        match labelO socket d2 col with
        | (Except.error e, es3) => (Except.error e, ev0 ++ es1 ++ es2 ++ es3)
        | (Except.ok d3, es3) =>
          (Except.ok (updateSubgraphTriples sg (filterInternals d3)),
            ev0 ++ es1 ++ es2 ++ es3)

/-- Count of addActivity events carrying a given label. -/
def countAdd (es : List Event) (lbl : String) : Nat :=
  (es.filter (fun e => e = Event.addAct lbl)).length

/-- Count of removeActivity events carrying a given label. -/
def countRemove (es : List Event) (lbl : String) : Nat :=
  (es.filter (fun e => e = Event.removeAct lbl)).length

/-- The triplesQuery invocations of a trace, in order. -/
def queryCalls (es : List Event) : List Event :=
  es.filter (fun e =>
    match e with
    | Event.queryCall _ _ _ _ _ => true
    | _ => false)

/-! ### Merge-engine lemmas -/

/-- The initial loop state built by updateSubgraphTriples. -/
def initState (sg : Subgraph) : MergeState :=
  (sg, sg.nodes.map Node.id, sg.links.map Link.id)

theorem updateSubgraphTriples_eq (sg : Subgraph) (ts : List Triple) :
    updateSubgraphTriples sg ts = (ts.foldl mergeStep (initState sg)).1 := rfl

/-- The seen-id sets agree, as sets, with the ids present in the
accumulated subgraph. -/
def stInv (st : MergeState) : Prop :=
  (∀ x, x ∈ st.2.1 ↔ x ∈ st.1.nodes.map Node.id) ∧
  (∀ x, x ∈ st.2.2 ↔ x ∈ st.1.links.map Link.id)

theorem initState_inv (sg : Subgraph) : stInv (initState sg) :=
  ⟨fun _ => Iff.rfl, fun _ => Iff.rfl⟩

theorem addNode_inv {st : MergeState} (id lbl : String) (h : stInv st) :
    stInv (addNode st id lbl) := by
  unfold addNode
  split
  · exact h
  · refine ⟨fun x => ?_, fun x => (h.2 x)⟩
    simp only [List.mem_cons, List.map_append, List.mem_append, List.map_cons,
      List.map_nil, List.mem_singleton, h.1 x]
    tauto

theorem addLink_inv {st : MergeState} (id src tgt lbl : String) (h : stInv st) :
    stInv (addLink st id src tgt lbl) := by
  unfold addLink
  split
  · exact h
  · refine ⟨fun x => (h.1 x), fun x => ?_⟩
    simp only [List.mem_cons, List.map_append, List.mem_append, List.map_cons,
      List.map_nil, List.mem_singleton, h.2 x]
    tauto

theorem mergeStep_inv {st : MergeState} (t : Triple) (h : stInv st) :
    stInv (mergeStep st t) := by
  unfold mergeStep
  split
  · exact addLink_inv _ _ _ _ (addNode_inv _ _ (addNode_inv _ _ h))
  · exact h

theorem foldl_mergeStep_inv {st : MergeState} (ts : List Triple) (h : stInv st) :
    stInv (ts.foldl mergeStep st) := by
  induction ts generalizing st with
  | nil => exact h
  | cons t ts ih => exact ih (mergeStep_inv t h)

theorem addNode_mono_nodes {st : MergeState} {x : String} (id lbl : String)
    (h : x ∈ st.2.1) : x ∈ (addNode st id lbl).2.1 := by
  unfold addNode
  split
  · exact h
  · exact List.mem_cons_of_mem _ h

theorem addNode_links_eq (st : MergeState) (id lbl : String) :
    (addNode st id lbl).2.2 = st.2.2 := by
  unfold addNode
  split <;> rfl

theorem addLink_nodes_eq (st : MergeState) (id src tgt lbl : String) :
    (addLink st id src tgt lbl).2.1 = st.2.1 := by
  unfold addLink
  split <;> rfl

theorem addLink_mono_links {st : MergeState} {x : String} (id src tgt lbl : String)
    (h : x ∈ st.2.2) : x ∈ (addLink st id src tgt lbl).2.2 := by
  unfold addLink
  split
  · exact h
  · exact List.mem_cons_of_mem _ h

theorem mergeStep_mono_nodes {st : MergeState} {x : String} (t : Triple)
    (h : x ∈ st.2.1) : x ∈ (mergeStep st t).2.1 := by
  unfold mergeStep
  split
  · rw [addLink_nodes_eq]
    exact addNode_mono_nodes _ _ (addNode_mono_nodes _ _ h)
  · exact h

theorem mergeStep_mono_links {st : MergeState} {x : String} (t : Triple)
    (h : x ∈ st.2.2) : x ∈ (mergeStep st t).2.2 := by
  unfold mergeStep
  split
  · refine addLink_mono_links _ _ _ _ ?_
    rw [addNode_links_eq, addNode_links_eq]
    exact h
  · exact h

theorem foldl_mergeStep_mono_nodes {st : MergeState} {x : String}
    (ts : List Triple) (h : x ∈ st.2.1) : x ∈ (ts.foldl mergeStep st).2.1 := by
  induction ts generalizing st with
  | nil => exact h
  | cons t ts ih => exact ih (mergeStep_mono_nodes t h)

theorem foldl_mergeStep_mono_links {st : MergeState} {x : String}
    (ts : List Triple) (h : x ∈ st.2.2) : x ∈ (ts.foldl mergeStep st).2.2 := by
  induction ts generalizing st with
  | nil => exact h
  | cons t ts ih => exact ih (mergeStep_mono_links t h)

theorem addNode_mem (st : MergeState) (id lbl : String) :
    id ∈ (addNode st id lbl).2.1 := by
  unfold addNode
  split
  · assumption
  · exact List.mem_cons_self _ _

theorem addLink_mem (st : MergeState) (id src tgt lbl : String) :
    id ∈ (addLink st id src tgt lbl).2.2 := by
  unfold addLink
  split
  · assumption
  · exact List.mem_cons_self _ _

theorem mergeStep_mem (st : MergeState) (t : Triple) (h : isIri t.o = true) :
    sourceIdOf t ∈ (mergeStep st t).2.1 ∧ targetIdOf t ∈ (mergeStep st t).2.1 ∧
      linkIdOf t ∈ (mergeStep st t).2.2 := by
  unfold mergeStep
  rw [if_pos h]
  refine ⟨?_, ?_, addLink_mem _ _ _ _ _⟩
  · rw [addLink_nodes_eq]
    exact addNode_mono_nodes _ _ (addNode_mem _ _ _)
  · rw [addLink_nodes_eq]
    exact addNode_mem _ _ _

theorem foldl_mergeStep_complete (st : MergeState) {ts : List Triple}
    {t : Triple} (hmem : t ∈ ts) (hio : isIri t.o = true) :
    sourceIdOf t ∈ (ts.foldl mergeStep st).2.1 ∧
      targetIdOf t ∈ (ts.foldl mergeStep st).2.1 ∧
      linkIdOf t ∈ (ts.foldl mergeStep st).2.2 := by
  induction ts generalizing st with
  | nil => cases hmem
  | cons u ts ih =>
    rcases List.mem_cons.mp hmem with rfl | hmem
    · obtain ⟨h1, h2, h3⟩ := mergeStep_mem st t hio
      exact ⟨foldl_mergeStep_mono_nodes ts h1, foldl_mergeStep_mono_nodes ts h2,
        foldl_mergeStep_mono_links ts h3⟩
    · exact ih _ hmem

theorem addNode_id_of_mem {st : MergeState} {id : String} (lbl : String)
    (h : id ∈ st.2.1) : addNode st id lbl = st := by
  unfold addNode
  exact if_pos h

theorem addLink_id_of_mem {st : MergeState} {id : String} (src tgt lbl : String)
    (h : id ∈ st.2.2) : addLink st id src tgt lbl = st := by
  unfold addLink
  exact if_pos h

theorem mergeStep_id_of_mem {st : MergeState} {t : Triple}
    (h : isIri t.o = true → sourceIdOf t ∈ st.2.1 ∧ targetIdOf t ∈ st.2.1 ∧
      linkIdOf t ∈ st.2.2) : mergeStep st t = st := by
  unfold mergeStep
  split
  · rename_i hio
    obtain ⟨h1, h2, h3⟩ := h hio
    rw [addNode_id_of_mem _ h1, addNode_id_of_mem _ h2, addLink_id_of_mem _ _ _ h3]
  · rfl

theorem foldl_mergeStep_id {st : MergeState} {ts : List Triple}
    (h : ∀ t ∈ ts, isIri t.o = true → sourceIdOf t ∈ st.2.1 ∧
      targetIdOf t ∈ st.2.1 ∧ linkIdOf t ∈ st.2.2) :
    ts.foldl mergeStep st = st := by
  induction ts with
  | nil => rfl
  | cons t ts ih =>
    have hstep : mergeStep st t = st :=
      mergeStep_id_of_mem (h t (List.mem_cons_self _ _))
    simp only [List.foldl_cons, hstep]
    exact ih (fun u hu => h u (List.mem_cons_of_mem _ hu))

/-- The accumulated node ids and link keys are duplicate-free. -/
def stNodup (st : MergeState) : Prop :=
  (st.1.nodes.map Node.id).Nodup ∧ (st.1.links.map Link.id).Nodup

theorem addNode_nodup {st : MergeState} (id lbl : String) (hinv : stInv st)
    (h : stNodup st) : stNodup (addNode st id lbl) := by
  unfold addNode
  split
  · exact h
  · rename_i hmem
    refine ⟨?_, h.2⟩
    have hid : id ∉ st.1.nodes.map Node.id := fun hc => hmem ((hinv.1 id).2 hc)
    simp only [List.map_append, List.map_cons, List.map_nil]
    rw [← List.concat_eq_append]
    exact List.Nodup.concat hid h.1

theorem addLink_nodup {st : MergeState} (id src tgt lbl : String)
    (hinv : stInv st) (h : stNodup st) :
    stNodup (addLink st id src tgt lbl) := by
  unfold addLink
  split
  · exact h
  · rename_i hmem
    refine ⟨h.1, ?_⟩
    have hid : id ∉ st.1.links.map Link.id := fun hc => hmem ((hinv.2 id).2 hc)
    simp only [List.map_append, List.map_cons, List.map_nil]
    rw [← List.concat_eq_append]
    exact List.Nodup.concat hid h.2

theorem mergeStep_nodup {st : MergeState} (t : Triple) (hinv : stInv st)
    (h : stNodup st) : stNodup (mergeStep st t) := by
  unfold mergeStep
  split
  · exact addLink_nodup _ _ _ _
      (addNode_inv _ _ (addNode_inv _ _ hinv))
      (addNode_nodup _ _ (addNode_inv _ _ hinv) (addNode_nodup _ _ hinv h))
  · exact h

theorem foldl_mergeStep_nodup {st : MergeState} (ts : List Triple)
    (hinv : stInv st) (h : stNodup st) : stNodup (ts.foldl mergeStep st) := by
  induction ts generalizing st with
  | nil => exact h
  | cons t ts ih => exact ih (mergeStep_inv t hinv) (mergeStep_nodup t hinv h)

theorem addNode_nodes_extend (st : MergeState) (id lbl : String) :
    ∃ r, (addNode st id lbl).1.nodes = st.1.nodes ++ r := by
  unfold addNode
  split
  · exact ⟨[], (List.append_nil _).symm⟩
  · exact ⟨_, rfl⟩

theorem addNode_links_unchanged (st : MergeState) (id lbl : String) :
    (addNode st id lbl).1.links = st.1.links := by
  unfold addNode
  split <;> rfl

theorem addLink_links_extend (st : MergeState) (id src tgt lbl : String) :
    ∃ r, (addLink st id src tgt lbl).1.links = st.1.links ++ r := by
  unfold addLink
  split
  · exact ⟨[], (List.append_nil _).symm⟩
  · exact ⟨_, rfl⟩

theorem addLink_nodes_unchanged (st : MergeState) (id src tgt lbl : String) :
    (addLink st id src tgt lbl).1.nodes = st.1.nodes := by
  unfold addLink
  split <;> rfl

theorem mergeStep_extend (st : MergeState) (t : Triple) :
    ∃ rn rl, (mergeStep st t).1.nodes = st.1.nodes ++ rn ∧
      (mergeStep st t).1.links = st.1.links ++ rl := by
  unfold mergeStep
  split
  · obtain ⟨r1, h1⟩ := addNode_nodes_extend st (sourceIdOf t)
      (labelOrUnknown t.s.label)
    obtain ⟨r2, h2⟩ := addNode_nodes_extend
      (addNode st (sourceIdOf t) (labelOrUnknown t.s.label))
      (targetIdOf t) (labelOrUnknown t.o.label)
    obtain ⟨rl, hl⟩ := addLink_links_extend
      (addNode (addNode st (sourceIdOf t) (labelOrUnknown t.s.label))
        (targetIdOf t) (labelOrUnknown t.o.label))
      (linkIdOf t) (sourceIdOf t) (targetIdOf t) (labelOrUnknown t.p.label)
    refine ⟨r1 ++ r2, rl, ?_, ?_⟩
    · rw [addLink_nodes_unchanged, h2, h1, List.append_assoc]
    · rw [hl, addNode_links_unchanged, addNode_links_unchanged]
  · exact ⟨[], [], (List.append_nil _).symm, (List.append_nil _).symm⟩

theorem foldl_mergeStep_extend (st : MergeState) (ts : List Triple) :
    ∃ rn rl, (ts.foldl mergeStep st).1.nodes = st.1.nodes ++ rn ∧
      (ts.foldl mergeStep st).1.links = st.1.links ++ rl := by
  induction ts generalizing st with
  | nil => exact ⟨[], [], (List.append_nil _).symm, (List.append_nil _).symm⟩
  | cons t ts ih =>
    obtain ⟨rn1, rl1, h1, h2⟩ := mergeStep_extend st t
    obtain ⟨rn2, rl2, h3, h4⟩ := ih (mergeStep st t)
    refine ⟨rn1 ++ rn2, rl1 ++ rl2, ?_, ?_⟩
    · simp only [List.foldl_cons, h3, h1, List.append_assoc]
    · simp only [List.foldl_cons, h4, h2, List.append_assoc]

theorem addNode_nodes_mono {st : MergeState} {n : Node} (id lbl : String)
    (h : n ∈ st.1.nodes) : n ∈ (addNode st id lbl).1.nodes := by
  obtain ⟨r, hr⟩ := addNode_nodes_extend st id lbl
  rw [hr]
  exact List.mem_append_left _ h

theorem addNode_creates {st : MergeState} {id : String} (lbl : String)
    (h : id ∉ st.2.1) :
    ({ id := id, label := lbl, group := 1 } : Node) ∈
      (addNode st id lbl).1.nodes := by
  unfold addNode
  rw [if_neg h]
  exact List.mem_append_right _ (List.mem_singleton.mpr rfl)

theorem addNode_ids_cases (st : MergeState) (id lbl : String) :
    (addNode st id lbl).2.1 = st.2.1 ∨
      (addNode st id lbl).2.1 = id :: st.2.1 := by
  unfold addNode
  split
  · exact Or.inl rfl
  · exact Or.inr rfl

theorem addLink_creates {st : MergeState} {id : String} (src tgt lbl : String)
    (h : id ∉ st.2.2) :
    ({ id := id, source := src, target := tgt, label := lbl, value := 1 } : Link) ∈
      (addLink st id src tgt lbl).1.links := by
  unfold addLink
  rw [if_neg h]
  exact List.mem_append_right _ (List.mem_singleton.mpr rfl)

theorem foldl_mergeStep_nodes_subset {st : MergeState} {n : Node}
    (ts : List Triple) (h : n ∈ st.1.nodes) :
    n ∈ (ts.foldl mergeStep st).1.nodes := by
  obtain ⟨rn, rl, hn, hl⟩ := foldl_mergeStep_extend st ts
  rw [hn]
  exact List.mem_append_left _ h

theorem foldl_mergeStep_links_subset {st : MergeState} {l : Link}
    (ts : List Triple) (h : l ∈ st.1.links) :
    l ∈ (ts.foldl mergeStep st).1.links := by
  obtain ⟨rn, rl, hn, hl⟩ := foldl_mergeStep_extend st ts
  rw [hl]
  exact List.mem_append_left _ h

theorem mergeStep_creates_source {st : MergeState} {t : Triple}
    (hio : isIri t.o = true) (h : sourceIdOf t ∉ st.2.1) :
    ({ id := sourceIdOf t, label := labelOrUnknown t.s.label, group := 1 } : Node) ∈
      (mergeStep st t).1.nodes := by
  unfold mergeStep
  rw [if_pos hio, addLink_nodes_unchanged]
  exact addNode_nodes_mono _ _ (addNode_creates _ h)

theorem mergeStep_creates_target {st : MergeState} {t : Triple}
    (hio : isIri t.o = true) (h : targetIdOf t ∉ st.2.1)
    (hne : targetIdOf t ≠ sourceIdOf t) :
    ({ id := targetIdOf t, label := labelOrUnknown t.o.label, group := 1 } : Node) ∈
      (mergeStep st t).1.nodes := by
  unfold mergeStep
  rw [if_pos hio, addLink_nodes_unchanged]
  have h1 : targetIdOf t ∉
      (addNode st (sourceIdOf t) (labelOrUnknown t.s.label)).2.1 := by
    rcases addNode_ids_cases st (sourceIdOf t) (labelOrUnknown t.s.label) with
      hc | hc
    · rw [hc]; exact h
    · rw [hc]
      intro hm
      rcases List.mem_cons.mp hm with hm | hm
      · exact hne hm
      · exact h hm
  exact addNode_creates _ h1

theorem mergeStep_creates_link {st : MergeState} {t : Triple}
    (hio : isIri t.o = true) (h : linkIdOf t ∉ st.2.2) :
    ({ id := linkIdOf t, source := sourceIdOf t, target := targetIdOf t,
       label := labelOrUnknown t.p.label, value := 1 } : Link) ∈
      (mergeStep st t).1.links := by
  unfold mergeStep
  rw [if_pos hio]
  have h1 : linkIdOf t ∉
      (addNode (addNode st (sourceIdOf t) (labelOrUnknown t.s.label))
        (targetIdOf t) (labelOrUnknown t.o.label)).2.2 := by
    rw [addNode_links_eq, addNode_links_eq]
    exact h
  exact addLink_creates (sourceIdOf t) (targetIdOf t)
    (labelOrUnknown t.p.label) h1

/-! ### Claim theorems for the merge engine -/

/-- Claim C1: merging the same statement batch twice is idempotent: for
every Subgraph g and batch b, updateSubgraphTriples
(updateSubgraphTriples g b) b equals updateSubgraphTriples g b — the
second merge adds no nodes and no links. -/
theorem C1_merge_idempotent (g : Subgraph) (b : List Triple) :
    updateSubgraphTriples (updateSubgraphTriples g b) b =
      updateSubgraphTriples g b := by
  have hinv : stInv (b.foldl mergeStep (initState g)) :=
    foldl_mergeStep_inv b (initState_inv g)
  rw [updateSubgraphTriples_eq g b, updateSubgraphTriples_eq]
  have hall : ∀ t ∈ b, isIri t.o = true →
      sourceIdOf t ∈ (initState (b.foldl mergeStep (initState g)).1).2.1 ∧
      targetIdOf t ∈ (initState (b.foldl mergeStep (initState g)).1).2.1 ∧
      linkIdOf t ∈ (initState (b.foldl mergeStep (initState g)).1).2.2 := by
    intro t ht hio
    obtain ⟨h1, h2, h3⟩ := foldl_mergeStep_complete (initState g) ht hio
    exact ⟨(hinv.1 _).1 h1, (hinv.1 _).1 h2, (hinv.2 _).1 h3⟩
  rw [foldl_mergeStep_id hall]
  rfl

/-- Claim C2: starting from createSubgraph, after every finite sequence
of updateSubgraphTriples calls the node ids are pairwise distinct and
the composite link keys are pairwise distinct. -/
theorem C2_no_duplicates (bs : List (List Triple)) :
    ((bs.foldl updateSubgraphTriples createSubgraph).nodes.map Node.id).Nodup ∧
    ((bs.foldl updateSubgraphTriples createSubgraph).links.map Link.id).Nodup := by
  have key : ∀ (bs : List (List Triple)) (sg : Subgraph),
      (sg.nodes.map Node.id).Nodup → (sg.links.map Link.id).Nodup →
      ((bs.foldl updateSubgraphTriples sg).nodes.map Node.id).Nodup ∧
      ((bs.foldl updateSubgraphTriples sg).links.map Link.id).Nodup := by
    intro bs
    induction bs with
    | nil => intro sg hn hl; exact ⟨hn, hl⟩
    | cons b bs ih =>
      intro sg hn hl
      have h1 : stNodup (b.foldl mergeStep (initState sg)) :=
        foldl_mergeStep_nodup b (initState_inv sg) ⟨hn, hl⟩
      exact ih (updateSubgraphTriples sg b) h1.1 h1.2
  exact key bs createSubgraph (by simp [createSubgraph]) (by simp [createSubgraph])

/-- Claim C4: a batch containing only statements whose object is not an
IRI merges to the unchanged input subgraph: literal-object statements
contribute no node and no link. -/
theorem C4_literal_objects_skipped (g : Subgraph) (b : List Triple)
    (h : ∀ t ∈ b, isIri t.o = false) :
    updateSubgraphTriples g b = g := by
  have hid : b.foldl mergeStep (initState g) = initState g := by
    apply foldl_mergeStep_id
    intro t ht hio
    rw [h t ht] at hio
    exact absurd hio (by simp)
  rw [updateSubgraphTriples_eq, hid]
  rfl

/-- Witness for C4 at a concrete input: a literal-object statement
leaves a one-node subgraph unchanged. -/
theorem C4_witness :
    updateSubgraphTriples
      { nodes := [{ id := "A", label := "Alice", group := 1 }], links := [] }
      [{ s := iriTerm "A", p := iriTerm "knows", o := { t := "l", v := "lit" } }] =
      { nodes := [{ id := "A", label := "Alice", group := 1 }], links := [] } :=
  C4_literal_objects_skipped _ _ (by decide)

/-- Claim C8: the merge is non-destructive: the output node list and
link list contain the input subgraph's entries unchanged and in order
as a prefix, with new entries only appended. -/
theorem C8_merge_nondestructive (g : Subgraph) (b : List Triple) :
    ∃ rn rl, (updateSubgraphTriples g b).nodes = g.nodes ++ rn ∧
      (updateSubgraphTriples g b).links = g.links ++ rl := by
  rw [updateSubgraphTriples_eq]
  exact foldl_mergeStep_extend (initState g) b

/-- Claim C9: term extraction is total: getTermValue returns the
identifier of an IRI, the value of a literal, the blank-node identifier
of a blank node, and the sentinel empty string on any unrecognised tag;
isIri holds exactly on the IRI tag. -/
theorem C9_term_extraction_total (term : Term) :
    (term.t = "i" → getTermValue term = term.i) ∧
    (term.t = "l" → getTermValue term = term.v) ∧
    (term.t = "b" → getTermValue term = term.d) ∧
    (term.t ≠ "i" → term.t ≠ "l" → term.t ≠ "b" → getTermValue term = "") ∧
    (isIri term = true ↔ term.t = "i") := by
  unfold getTermValue isIri
  refine ⟨?_, ?_, ?_, ?_, ?_⟩
  · intro h; rw [if_pos h]
  · intro h
    rw [if_neg (fun hc => by rw [h] at hc; exact absurd hc (by decide)), if_pos h]
  · intro h
    rw [if_neg (fun hc => by rw [h] at hc; exact absurd hc (by decide)),
      if_neg (fun hc => by rw [h] at hc; exact absurd hc (by decide)), if_pos h]
  · intro h1 h2 h3
    rw [if_neg h1, if_neg h2, if_neg h3]
  · exact decide_eq_true_iff

/-- Witness for C9 at a concrete malformed term: tag "q" yields the
empty-string sentinel. -/
theorem C9_witness :
    getTermValue { t := "q", i := "a", v := "b", d := "c" } = "" :=
  (C9_term_extraction_total _).2.2.2.1 (by decide) (by decide) (by decide)

/-- Claim C10: the "unknown" fallback triggers on falsy labels, not
only absent ones: wherever in a batch a statement sits, a subject or
object Term carrying the attached label "" yields a freshly-created
node labelled "unknown", and a predicate Term carrying the attached
label "" yields a freshly-created link labelled "unknown" — each of
the three positions independently, exactly as if no label had been
attached. -/
theorem C10_empty_label_unknown (g : Subgraph) (b1 b2 : List Triple)
    (t : Triple) (hio : isIri t.o = true) :
    (t.s.label = some "" →
      sourceIdOf t ∉ (updateSubgraphTriples g b1).nodes.map Node.id →
      ({ id := sourceIdOf t, label := "unknown", group := 1 } : Node) ∈
        (updateSubgraphTriples g (b1 ++ t :: b2)).nodes) ∧
    (t.o.label = some "" →
      targetIdOf t ∉ (updateSubgraphTriples g b1).nodes.map Node.id →
      targetIdOf t ≠ sourceIdOf t →
      ({ id := targetIdOf t, label := "unknown", group := 1 } : Node) ∈
        (updateSubgraphTriples g (b1 ++ t :: b2)).nodes) ∧
    (t.p.label = some "" →
      linkIdOf t ∉ (updateSubgraphTriples g b1).links.map Link.id →
      ({ id := linkIdOf t, source := sourceIdOf t, target := targetIdOf t,
         label := "unknown", value := 1 } : Link) ∈
        (updateSubgraphTriples g (b1 ++ t :: b2)).links) := by
  have hinv : stInv (b1.foldl mergeStep (initState g)) :=
    foldl_mergeStep_inv b1 (initState_inv g)
  have hsplit : updateSubgraphTriples g (b1 ++ t :: b2) =
      (b2.foldl mergeStep
        (mergeStep (b1.foldl mergeStep (initState g)) t)).1 := by
    rw [updateSubgraphTriples_eq, List.foldl_append]
    rfl
  have hlbl : labelOrUnknown (some "") = "unknown" := rfl
  refine ⟨?_, ?_, ?_⟩
  · intro hs hfresh
    rw [hsplit]
    have h1 : sourceIdOf t ∉ (b1.foldl mergeStep (initState g)).2.1 :=
      fun hc => hfresh ((hinv.1 _).1 hc)
    have h2 := mergeStep_creates_source hio h1
    rw [hs, hlbl] at h2
    exact foldl_mergeStep_nodes_subset b2 h2
  · intro ho hfresh hne
    rw [hsplit]
    have h1 : targetIdOf t ∉ (b1.foldl mergeStep (initState g)).2.1 :=
      fun hc => hfresh ((hinv.1 _).1 hc)
    have h2 := mergeStep_creates_target hio h1 hne
    rw [ho, hlbl] at h2
    exact foldl_mergeStep_nodes_subset b2 h2
  · intro hp hfresh
    rw [hsplit]
    have h1 : linkIdOf t ∉ (b1.foldl mergeStep (initState g)).2.2 :=
      fun hc => hfresh ((hinv.2 _).1 hc)
    have h2 := mergeStep_creates_link hio h1
    rw [hp, hlbl] at h2
    exact foldl_mergeStep_links_subset b2 h2

/-- Witness for C10 at concrete inputs exercising two independent
cases: a subject whose only annotation is the empty-string label
becomes a node labelled "unknown", and a statement whose only
empty-string label sits on the predicate creates a link labelled
"unknown" between two pre-existing, properly-labelled nodes. -/
theorem C10_witness :
    ({ id := "A", label := "unknown", group := 1 } : Node) ∈
      (updateSubgraphTriples createSubgraph
        [{ s := { t := "i", i := "A", label := some "" },
           p := { t := "i", i := "knows", label := some "knows" },
           o := { t := "i", i := "B", label := some "Bob" } }]).nodes ∧
    ({ id := "A@@p@@B", source := "A", target := "B", label := "unknown",
       value := 1 } : Link) ∈
      (updateSubgraphTriples
        { nodes := [{ id := "A", label := "Alice", group := 1 },
                    { id := "B", label := "Bob", group := 1 }],
          links := [] }
        [{ s := { t := "i", i := "A", label := some "Alice" },
           p := { t := "i", i := "p", label := some "" },
           o := { t := "i", i := "B", label := some "Bob" } }]).links :=
  ⟨(C10_empty_label_unknown createSubgraph [] [] _ (by decide)).1 rfl
      (by decide),
   (C10_empty_label_unknown
      { nodes := [{ id := "A", label := "Alice", group := 1 },
                  { id := "B", label := "Bob", group := 1 }],
        links := [] } [] [] _ (by decide)).2.2 rfl (by decide)⟩

/-! ### Claim theorems for the asynchronous layer -/

/-- Claim C5: the well-known short-circuit: for every identifier in the
predefined mapping, queryLabel resolves to the mapped string with zero
triplesQuery calls and zero activity signals (an empty event trace). -/
theorem C5_predefined_short_circuit (socket : FlowApi) (uri : String)
    (col : Option String) (lbl : String)
    (h : predefinedLookup uri = some lbl) :
    queryLabel socket uri col = (Except.ok lbl, []) := by
  unfold queryLabel
  rw [h]

/-- Witness for C5: the RDFS label IRI resolves to "label" with an
empty trace, even against a socket that rejects every query. -/
theorem C5_witness :
    queryLabel { triplesQuery := fun _ _ _ _ _ => Except.error "down" }
      RDFS_LABEL none = (Except.ok "label", []) :=
  C5_predefined_short_circuit _ _ _ _ (by decide)

/-- Claim C6: the label fallback: for an identifier outside the
predefined mapping, queryLabel issues exactly one triplesQuery with
subject the identifier, predicate the RDFS label IRI, limit 1, and
resolves to the first returned object's string value on a non-empty
result and to the identifier itself on an empty result — never a
rejection. -/
theorem C6_label_fallback (socket : FlowApi) (uri : String)
    (col : Option String) (ts : List Triple)
    (hpre : predefinedLookup uri = none)
    (hq : socket.triplesQuery (some (iriTerm uri)) (some (iriTerm RDFS_LABEL))
      none 1 col = Except.ok ts) :
    queryLabel socket uri col =
      (Except.ok (match ts with
        | [] => uri
        | t0 :: _ => getTermValue t0.o),
       [Event.addAct ("Label " ++ uri),
        Event.queryCall (some (iriTerm uri)) (some (iriTerm RDFS_LABEL))
          none 1 col,
        Event.removeAct ("Label " ++ uri)]) := by
  unfold queryLabel runQuery
  rw [hpre]
  simp only [hq]
  cases ts <;> rfl

/-- Witness for C6: an identifier with no label statement and outside
the predefined table resolves to itself, after one pattern query. -/
theorem C6_witness :
    queryLabel { triplesQuery := fun _ _ _ _ _ => Except.ok [] } "urn:x" none =
      (Except.ok "urn:x",
       [Event.addAct ("Label " ++ "urn:x"),
        Event.queryCall (some (iriTerm "urn:x")) (some (iriTerm RDFS_LABEL))
          none 1 none,
        Event.removeAct ("Label " ++ "urn:x")]) :=
  C6_label_fallback _ _ _ _ (by decide) rfl

/-- Claim C7: fan-out completeness: query issues exactly three pattern
queries — subject, predicate, object position, the other two wildcard —
and resolves to the concatenation of the three result lists in that
fixed order. -/
theorem C7_fanout_completeness (socket : FlowApi) (uri : String)
    (limit : Option Nat) (col : Option String) (ra rb rc : List Triple)
    (hs : socket.triplesQuery (some (iriTerm uri)) none none
      (limitOrDefault limit) col = Except.ok ra)
    (hp : socket.triplesQuery none (some (iriTerm uri)) none
      (limitOrDefault limit) col = Except.ok rb)
    (ho : socket.triplesQuery none none (some (iriTerm uri))
      (limitOrDefault limit) col = Except.ok rc) :
    (query socket uri limit col).1 = Except.ok (ra ++ rb ++ rc) ∧
    queryCalls (query socket uri limit col).2 =
      [Event.queryCall (some (iriTerm uri)) none none (limitOrDefault limit) col,
       Event.queryCall none (some (iriTerm uri)) none (limitOrDefault limit) col,
       Event.queryCall none none (some (iriTerm uri)) (limitOrDefault limit) col] := by
  unfold query queryS queryP queryO runQuery
  simp only [hs, hp, ho, queryCalls, List.filter]
  exact ⟨trivial, trivial⟩

/-- Witness for C7: a socket answering each pattern position with a
distinct result list yields their concatenation in s/p/o order. -/
theorem C7_witness :
    (query
      { triplesQuery := fun s p _ _ _ =>
          if s.isSome then
            Except.ok [{ s := iriTerm "s1", p := iriTerm "p1", o := iriTerm "o1" }]
          else if p.isSome then
            Except.ok [{ s := iriTerm "s2", p := iriTerm "p2", o := iriTerm "o2" }]
          else
            Except.ok [{ s := iriTerm "s3", p := iriTerm "p3", o := iriTerm "o3" }] }
      "X" none none).1 =
      Except.ok
        [{ s := iriTerm "s1", p := iriTerm "p1", o := iriTerm "o1" },
         { s := iriTerm "s2", p := iriTerm "p2", o := iriTerm "o2" },
         { s := iriTerm "s3", p := iriTerm "p3", o := iriTerm "o3" }] :=
  (C7_fanout_completeness _ _ _ _ _ _ _ rfl rfl rfl).1

/-- A mock socket whose every query rejects. -/
def rejectingSocket : FlowApi :=
  { triplesQuery := fun _ _ _ _ _ => Except.error "network failure" }

/-- A mock socket whose every query resolves to the empty list. -/
def emptySocket : FlowApi :=
  { triplesQuery := fun _ _ _ _ _ => Except.ok [] }

/-- Claim C3 is refuted by the code: updateSubgraphByRelationship has
no catch on the directed query promise, so when the query rejects the
directional activity label is added once and never removed; the
add/remove counts balance only on the resolve path. -/
theorem C3_activity_not_removed_on_rejection :
    countAdd (updateSubgraphByRelationship rejectingSocket "A" "knows"
      Direction.outgoing createSubgraph none).2
      "Following outgoing relationship: knows" = 1 ∧
    countRemove (updateSubgraphByRelationship rejectingSocket "A" "knows"
      Direction.outgoing createSubgraph none).2
      "Following outgoing relationship: knows" = 0 ∧
    countAdd (updateSubgraphByRelationship emptySocket "A" "knows"
      Direction.outgoing createSubgraph none).2
      "Following outgoing relationship: knows" = 1 ∧
    countRemove (updateSubgraphByRelationship emptySocket "A" "knows"
      Direction.outgoing createSubgraph none).2
      "Following outgoing relationship: knows" = 1 := by
  decide

end TrustGraph
